import Mathlib

/-!
Verification development for the MindGuard AI reflection app (`src/app.py`).

The app is shallowly embedded as follows:

* user text is a `List Char`; Python `str.lower()` / `str.strip()` become
  `pyLower` / `pyStrip`, and Python substring containment (`needle in hay`)
  becomes `containsSub`;
* classifier confidences (Python floats in `[0,1]`) are embedded as exact
  rationals `ℚ`; Python `int(x)` (truncation toward zero) is `pyInt`;
* the classifier call `classifier(user_input)` (together with the
  `results[0]` projection) is an abstract function
  `Classifier = List Char → Option (List (List Char × ℚ))`, where `none`
  models the adapter raising/being unavailable;
* the Streamlit session state lists `st.session_state.history` and
  `st.session_state.entries` form `AppState`;
* one click of the Analyze button is `analyzeStep`; its visible result is an
  `Outcome`: `validationWarning` is the `st.warning` branch for blank input,
  `uncaughtException` models a Python exception propagating out of the
  script (the code has no try/except), and `success` carries the displayed
  emotion, confidence and risk score;
* the Export-PDF click is `exportStep`; the `plotOk` flag models whether
  `fig.savefig`/`pdf.image` succeed; `ExportResult.written` carries the
  report blocks (`enumerate(zip(entries, history), start=1)`) and the
  success message, and `ExportResult.uncaughtException` again models an
  unhandled exception (raised before `pdf.output`, so no file is written).
-/

namespace MindGuard

/-- Python `str.lower()` on the embedded text (`user_input.lower()`,
`top_emotion["label"].lower()` in `src/app.py`). -/
def pyLower (t : List Char) : List Char := t.map Char.toLower

/-- Python `str.strip()`: drop whitespace from both ends
(`user_input.strip()` in `src/app.py`). -/
def pyStrip (t : List Char) : List Char :=
  ((t.dropWhile Char.isWhitespace).reverse.dropWhile Char.isWhitespace).reverse

/-- Python substring containment `needle in hay`. -/
def containsSub : List Char → List Char → Bool
  | [], needle => needle.isEmpty
  | c :: t, needle => List.isPrefixOf needle (c :: t) || containsSub t needle

/-- `crisis_keywords` from `src/app.py` (all already lower-case). -/
def crisis_keywords : List (List Char) :=
  ["suicide".data, "hopeless".data, "unsafe".data, "end my life".data,
   "self-harm".data]

/-- `crisis_flag = any(word in user_input.lower() for word in crisis_keywords)`
(`src/app.py` line 93). -/
def crisis_flag (input : List Char) : Bool :=
  crisis_keywords.any (fun w => containsSub (pyLower input) w)

/-- Python `int(x)` on a (here: exact rational) number: truncation toward
zero. -/
def pyInt (q : ℚ) : ℤ := if 0 ≤ q then ⌊q⌋ else ⌈q⌉

/-- The label list `["sadness", "fear", "anger"]` tested on line 104 of
`src/app.py`. -/
def negative_emotions : List (List Char) :=
  ["sadness".data, "fear".data, "anger".data]

/-- The risk computation of `src/app.py` lines 102-107:
`10` under a crisis flag, `int(confidence * 10)` for sadness/fear/anger,
`int((1 - confidence) * 5)` otherwise. -/
def risk_score (crisis : Bool) (emotion : List Char) (confidence : ℚ) : ℤ :=
  if crisis then 10
  else if emotion ∈ negative_emotions then pyInt (confidence * 10)
  else pyInt ((1 - confidence) * 5)

/-- The fold performed by Python `max(..., key=lambda x: x["score"])`:
the running maximum is replaced only on a strict increase, so the first
element attaining the maximum wins ties. -/
def pickMax (acc : List Char × ℚ) : List (List Char × ℚ) → List Char × ℚ
  | [] => acc
  | y :: ys => pickMax (if acc.2 < y.2 then y else acc) ys

/-- `top_emotion = max(emotion_scores, key=lambda x: x["score"])`
(`src/app.py` line 97); `none` when the list is empty (Python raises
`ValueError` there). -/
def top_emotion : List (List Char × ℚ) → Option (List Char × ℚ)
  | [] => none
  | x :: xs => some (pickMax x xs)

/-- The `coping_tips` dictionary of `src/app.py` lines 24-54, as a partial
lookup (`none` = key absent). -/
def coping_tips (emotion : List Char) : Option (List String) :=
  if emotion = "sadness".data then
    some ["Take a 5-minute break and breathe deeply.",
          "Talk to a friend or a trusted adult.",
          "Write down your thoughts in a journal."]
  else if emotion = "fear".data then
    some ["Practice grounding techniques (5 senses exercise).",
          "List what is in your control.",
          "Take slow, deep breaths."]
  else if emotion = "anger".data then
    some ["Take a short walk to release tension.",
          "Try writing your feelings in a notebook.",
          "Count to 10 before reacting."]
  else if emotion = "joy".data then
    some ["Share your happiness with someone you care about.",
          "Keep a gratitude journal.",
          "Celebrate small wins!"]
  else if emotion = "surprise".data then
    some ["Take a moment to process the situation.",
          "Reflect on what this means for you.",
          "Share your thoughts with someone you trust."]
  else if emotion = "neutral".data then
    some ["Reflect on your day and plan one positive activity.",
          "Take a short break to reset your focus."]
  else none

/-- The fallback of `coping_tips.get(emotion, [...])` on line 128 of
`src/app.py`. -/
def default_tips : List String := ["Take a break and focus on self-care."]

/-- `tips = coping_tips.get(emotion, ["Take a break and focus on self-care."])`
(`src/app.py` line 128). -/
def advice_for (emotion : List Char) : List String :=
  (coping_tips emotion).getD default_tips

/-- The session state of `src/app.py`: `st.session_state.history` (risk
scores) and `st.session_state.entries` (entry texts). -/
structure AppState where
  history : List ℤ
  entries : List (List Char)
deriving DecidableEq

/-- The user-visible result of one Analyze click. `uncaughtException`
models a Python exception propagating out of the script (the analyze block
has no try/except). -/
inductive Outcome where
  | validationWarning : Outcome
  | uncaughtException : Outcome
  | success : List Char → ℚ → ℤ → Outcome
deriving DecidableEq

/-- The classifier adapter: text to ranked (label, score) list, composed
with the `results[0]` projection; `none` models the adapter raising or
being unavailable. -/
abbrev Classifier := List Char → Option (List (List Char × ℚ))

/-- The state-independent part of one Analyze click (`src/app.py` lines
89-107): blank-input guard, crisis check, classifier call, `max` selection,
lower-casing of the label, risk computation. -/
def analyzeOutcome (cl : Classifier) (input : List Char) : Outcome :=
  if pyStrip input = [] then Outcome.validationWarning
  else
    match cl input with
    | none => Outcome.uncaughtException
    | some scores =>
      match top_emotion scores with
      | none => Outcome.uncaughtException
      | some top =>
        let emotion := pyLower top.1
        Outcome.success emotion top.2 (risk_score (crisis_flag input) emotion top.2)

/-- One full Analyze click: on success the code appends the risk score to
`history` and the raw input to `entries` (`src/app.py` lines 134-135); on
the warning branch and on an uncaught exception the session state is
untouched. -/
def analyzeStep (cl : Classifier) (input : List Char) (s : AppState) :
    Outcome × AppState :=
  match analyzeOutcome cl input with
  | Outcome.success e c r =>
    (Outcome.success e c r, ⟨s.history ++ [r], s.entries ++ [input]⟩)
  | o => (o, s)

/-- A sequence of Analyze clicks. -/
def runAnalyzes (cl : Classifier) (inputs : List (List Char)) (s : AppState) :
    AppState :=
  inputs.foldl (fun st inp => (analyzeStep cl inp st).2) s

/-- The trend chart data: risk score against 0-based entry index
(`ax.plot(df["Risk Level"], ...)`, `src/app.py` line 150). Rendering is a
pure read of the state. -/
def trendPoints (s : AppState) : List (ℕ × ℤ) := s.history.enum

/-- The guard `if len(st.session_state.history) > 0:` (`src/app.py` line
140) gating the trend chart, the history table and the Export button. -/
def exportVisible (s : AppState) : Bool := decide (0 < s.history.length)

/-- The per-entry report blocks of the PDF export:
`enumerate(zip(st.session_state.entries, st.session_state.history), start=1)`
(`src/app.py` line 172). -/
def reportBlocks (s : AppState) : List (ℕ × List Char × ℤ) :=
  (s.entries.zip s.history).enum.map (fun p => (p.1 + 1, p.2))

/-- Result of one Export-PDF click. `written` carries the report blocks,
whether the trend image was embedded, and the success message shown to the
user; `uncaughtException` models `fig.savefig`/`pdf.image` raising, which
happens before `pdf.output` writes any file and is not caught by the code. -/
inductive ExportResult where
  | written : List (ℕ × List Char × ℤ) → Bool → String → ExportResult
  | uncaughtException : ExportResult
deriving DecidableEq

/-- One Export-PDF click (`src/app.py` lines 164-186). `plotOk` models
whether the plot could be rendered to an image and embedded. -/
def exportStep (s : AppState) (plotOk : Bool) : ExportResult × AppState :=
  if plotOk then
    (ExportResult.written (reportBlocks s) true
      "PDF report saved as MindGuard_Report.pdf! ✅", s)
  else (ExportResult.uncaughtException, s)

/-- A concrete classifier used in witnesses: always fully confident `joy`. -/
def clJoy : Classifier := fun _ => some [("joy".data, 1)]

/-- A concrete always-failing classifier used in witnesses. -/
def clNone : Classifier := fun _ => none

/-- The empty session state. -/
def st0 : AppState := ⟨[], []⟩

/-- A classifier used in witnesses: `sadness` with confidence `0.82`. -/
def clSad : Classifier := fun _ => some [("sadness".data, 82/100)]

/-- A classifier used in witnesses: `joy` with confidence `0.9`. -/
def clJoy9 : Classifier := fun _ => some [("joy".data, 9/10)]

/-- Spec-side predicate: the outcome of an Analyze click was handled and
displayed by the application code itself (the spec demands a handled
"analysis unavailable" report on classifier failure).  In the embedding the
handled outcomes are exactly `validationWarning` and `success`;
`uncaughtException` is an unhandled crash of the script run. -/
def handledOutcome : Outcome → Prop
  | Outcome.uncaughtException => False
  | _ => True

/-- Spec-side predicate: the export outcome was handled by the application
code (either a written report or a reported export error); in the embedding
`uncaughtException` is an unhandled crash. -/
def handledExport : ExportResult → Prop
  | ExportResult.uncaughtException => False
  | _ => True

/-- States reachable by the app: the initial empty session state, followed
by any sequence of Analyze and Export clicks. -/
inductive Reachable : AppState → Prop where
  | init : Reachable st0
  | analyzed (cl : Classifier) (input : List Char) (s : AppState) :
      Reachable s → Reachable (analyzeStep cl input s).2
  | exported (s : AppState) (b : Bool) :
      Reachable s → Reachable (exportStep s b).2

lemma analyzeStep_fst (cl : Classifier) (input : List Char) (s : AppState) :
    (analyzeStep cl input s).1 = analyzeOutcome cl input := by
  unfold analyzeStep
  cases analyzeOutcome cl input <;> rfl

lemma analyzeOutcome_success (cl : Classifier) (input : List Char)
    (e : List Char) (c : ℚ) (r : ℤ)
    (h : analyzeOutcome cl input = Outcome.success e c r) :
    r = risk_score (crisis_flag input) e c := by
  unfold analyzeOutcome at h
  split at h
  · exact absurd h (by simp)
  · split at h
    · exact absurd h (by simp)
    · split at h
      · exact absurd h (by simp)
      · injection h with he hc2 hr
        rw [← hr, ← he, ← hc2]

/-- C1: if the lower-cased input contains a configured crisis keyword
(`crisis_flag = true`), then whenever the Analyze click produces a result
at all, the displayed risk score is `10`, whatever the classifier returned. -/
theorem crisis_overrides_risk (cl : Classifier) (input : List Char)
    (s : AppState) (e : List Char) (c : ℚ) (r : ℤ)
    (hc : crisis_flag input = true)
    (ho : (analyzeStep cl input s).1 = Outcome.success e c r) :
    r = 10 := by
  rw [analyzeStep_fst] at ho
  have hr := analyzeOutcome_success cl input e c r ho
  rw [hc] at hr
  simpa [risk_score] using hr

/-- Witness for C1 at a concrete crisis input and a concrete classifier. -/
theorem crisis_overrides_risk_witness :
    (analyzeStep clJoy "I feel hopeless about everything".data st0).1
      = Outcome.success "joy".data 1 (risk_score true "joy".data 1)
    ∧ risk_score true "joy".data 1 = 10 := by
  refine ⟨rfl, ?_⟩
  exact crisis_overrides_risk clJoy "I feel hopeless about everything".data st0
    "joy".data 1 (risk_score true "joy".data 1) (by decide) rfl

/-- C2: without a crisis flag, a primary emotion among sadness/fear/anger
gives risk `⌊confidence * 10⌋`, which lies in `[0, 10]` for any classifier
confidence in `[0, 1]`. -/
theorem negative_emotion_risk (cl : Classifier) (input : List Char)
    (s : AppState) (e : List Char) (c : ℚ) (r : ℤ)
    (hc : crisis_flag input = false)
    (ho : (analyzeStep cl input s).1 = Outcome.success e c r)
    (hmem : e ∈ negative_emotions)
    (h0 : 0 ≤ c) (h1 : c ≤ 1) :
    r = ⌊c * 10⌋ ∧ 0 ≤ r ∧ r ≤ 10 := by
  rw [analyzeStep_fst] at ho
  have hr := analyzeOutcome_success cl input e c r ho
  rw [hc] at hr
  have h10 : (0:ℚ) ≤ c * 10 := by positivity
  have hrf : r = ⌊c * 10⌋ := by
    rw [hr]; simp [risk_score, hmem, pyInt, h10]
  refine ⟨hrf, ?_, ?_⟩
  · rw [hrf]; exact Int.floor_nonneg.mpr h10
  · rw [hrf]
    have hle : (c * 10 : ℚ) ≤ 10 := by nlinarith
    calc ⌊c * 10⌋ ≤ ⌊(10:ℚ)⌋ := Int.floor_le_floor hle
      _ = 10 := by norm_num

/-- Witness for C2: classifier answer `sadness : 0.82` on a non-crisis
input gives risk `⌊0.82 * 10⌋`, within `[0, 10]`. -/
theorem negative_emotion_risk_witness :
    pyInt ((82:ℚ)/100 * 10) = ⌊(82:ℚ)/100 * 10⌋
    ∧ 0 ≤ pyInt ((82:ℚ)/100 * 10) ∧ pyInt ((82:ℚ)/100 * 10) ≤ 10 := by
  exact negative_emotion_risk clSad "feeling down".data st0 "sadness".data
    (82/100) (pyInt ((82:ℚ)/100 * 10)) (by decide) rfl (by decide)
    (by norm_num) (by norm_num)

/-- C3: without a crisis flag, a primary emotion outside sadness/fear/anger
gives risk `⌊(1 - confidence) * 5⌋`, which lies in `[0, 5]` for any
classifier confidence in `[0, 1]`. -/
theorem other_emotion_risk (cl : Classifier) (input : List Char)
    (s : AppState) (e : List Char) (c : ℚ) (r : ℤ)
    (hc : crisis_flag input = false)
    (ho : (analyzeStep cl input s).1 = Outcome.success e c r)
    (hmem : e ∉ negative_emotions)
    (h0 : 0 ≤ c) (h1 : c ≤ 1) :
    r = ⌊(1 - c) * 5⌋ ∧ 0 ≤ r ∧ r ≤ 5 := by
  rw [analyzeStep_fst] at ho
  have hr := analyzeOutcome_success cl input e c r ho
  rw [hc] at hr
  have h5 : (0:ℚ) ≤ (1 - c) * 5 := by nlinarith
  have hrf : r = ⌊(1 - c) * 5⌋ := by
    rw [hr]; simp [risk_score, hmem, pyInt, h5]
  refine ⟨hrf, ?_, ?_⟩
  · rw [hrf]; exact Int.floor_nonneg.mpr h5
  · rw [hrf]
    have hle : ((1 - c) * 5 : ℚ) ≤ 5 := by nlinarith
    calc ⌊(1 - c) * 5⌋ ≤ ⌊(5:ℚ)⌋ := Int.floor_le_floor hle
      _ = 5 := by norm_num

/-- Witness for C3: classifier answer `joy : 0.9` on a non-crisis input
gives risk `⌊(1 - 0.9) * 5⌋`, within `[0, 5]`. -/
theorem other_emotion_risk_witness :
    pyInt ((1 - (9:ℚ)/10) * 5) = ⌊(1 - (9:ℚ)/10) * 5⌋
    ∧ 0 ≤ pyInt ((1 - (9:ℚ)/10) * 5) ∧ pyInt ((1 - (9:ℚ)/10) * 5) ≤ 5 := by
  exact other_emotion_risk clJoy9 "feeling down".data st0 "joy".data
    (9/10) (pyInt ((1 - (9:ℚ)/10) * 5)) (by decide) rfl (by decide)
    (by norm_num) (by norm_num)

/-- C4: an input that is empty after stripping whitespace is rejected with
the validation warning; the session state is returned unchanged and the
result does not depend on the classifier (it is never invoked). -/
theorem blank_input_rejected (cl : Classifier) (input : List Char)
    (s : AppState) (h : pyStrip input = []) :
    analyzeStep cl input s = (Outcome.validationWarning, s) := by
  unfold analyzeStep analyzeOutcome
  rw [if_pos h]

/-- Witness for C4 at the whitespace-only input `"   "`. -/
theorem blank_input_rejected_witness :
    analyzeStep clJoy "   ".data st0 = (Outcome.validationWarning, st0) :=
  blank_input_rejected clJoy "   ".data st0 (by decide)

/-- C9: the advice dispatcher is total — every label yields a non-empty tip
list, the exact table entry on a match and the one-element default
otherwise. -/
theorem advice_total (e : List Char) :
    advice_for e ≠ []
    ∧ (∀ ts, coping_tips e = some ts → advice_for e = ts)
    ∧ (coping_tips e = none → advice_for e = default_tips) := by
  refine ⟨?_, ?_, ?_⟩
  · unfold advice_for
    cases hct : coping_tips e with
    | none => simp [default_tips]
    | some ts =>
      rw [Option.getD_some]
      unfold coping_tips at hct
      split_ifs at hct
      all_goals
        first
        | exact Option.noConfusion hct
        | (injection hct with h2; rw [← h2]; simp)
  · intro ts h
    unfold advice_for
    rw [h, Option.getD_some]
  · intro h
    unfold advice_for
    rw [h, Option.getD_none]

/-- Witness for C9: a known label returns its table entry, an unknown label
returns the default, and both are non-empty. -/
theorem advice_total_witness :
    advice_for "sadness".data ≠ []
    ∧ advice_for "curiosity".data = default_tips := by
  exact ⟨(advice_total "sadness".data).1,
    (advice_total "curiosity".data).2.2 rfl⟩

lemma analyzeStep_snd_success (cl : Classifier) (input : List Char)
    (s : AppState) (e : List Char) (c : ℚ) (r : ℤ)
    (h : analyzeOutcome cl input = Outcome.success e c r) :
    (analyzeStep cl input s).2 = ⟨s.history ++ [r], s.entries ++ [input]⟩ := by
  unfold analyzeStep
  rw [h]

lemma analyzeStep_snd_cases (cl : Classifier) (input : List Char)
    (s : AppState) :
    (analyzeStep cl input s).2 = s
    ∨ ∃ r, (analyzeStep cl input s).2
        = ⟨s.history ++ [r], s.entries ++ [input]⟩ := by
  unfold analyzeStep
  cases analyzeOutcome cl input with
  | validationWarning => exact Or.inl rfl
  | uncaughtException => exact Or.inl rfl
  | success e c r => exact Or.inr ⟨r, rfl⟩

/-- C5: after `N` successful Analyze clicks the journal holds exactly the
`N` inputs appended in order after the previous contents; moreover every
single click (successful or not) preserves the previously stored entries
and risk scores and never shrinks the journal. -/
theorem journal_append_only (cl : Classifier) (inputs : List (List Char))
    (s : AppState)
    (h : ∀ inp ∈ inputs, ∃ e c r, analyzeOutcome cl inp = Outcome.success e c r) :
    (runAnalyzes cl inputs s).entries = s.entries ++ inputs
    ∧ (runAnalyzes cl inputs s).history.length
        = s.history.length + inputs.length
    ∧ (∀ (input : List Char) (s₁ : AppState),
        (analyzeStep cl input s₁).2.entries.take s₁.entries.length = s₁.entries
        ∧ (analyzeStep cl input s₁).2.history.take s₁.history.length = s₁.history
        ∧ s₁.history.length ≤ (analyzeStep cl input s₁).2.history.length) := by
  have hstep : ∀ (input : List Char) (s₁ : AppState),
      (analyzeStep cl input s₁).2.entries.take s₁.entries.length = s₁.entries
      ∧ (analyzeStep cl input s₁).2.history.take s₁.history.length = s₁.history
      ∧ s₁.history.length ≤ (analyzeStep cl input s₁).2.history.length := by
    intro input s₁
    rcases analyzeStep_snd_cases cl input s₁ with hs | ⟨r, hs⟩
    · rw [hs]
      exact ⟨List.take_length _, List.take_length _, le_rfl⟩
    · rw [hs]
      refine ⟨List.take_left _ _, List.take_left _ _, ?_⟩
      simp
  have hmain : ∀ (l : List (List Char)),
      (∀ inp ∈ l, ∃ e c r, analyzeOutcome cl inp = Outcome.success e c r) →
      ∀ st, (runAnalyzes cl l st).entries = st.entries ++ l
        ∧ (runAnalyzes cl l st).history.length = st.history.length + l.length := by
    intro l
    induction l with
    | nil => intro _ st; simp [runAnalyzes]
    | cons a as ih =>
      intro hsucc st
      obtain ⟨e, c, r, ha⟩ := hsucc a (List.mem_cons_self a as)
      have ha2 : (analyzeStep cl a st).2
          = ⟨st.history ++ [r], st.entries ++ [a]⟩ :=
        analyzeStep_snd_success cl a st e c r ha
      have hrun : runAnalyzes cl (a :: as) st
          = runAnalyzes cl as (analyzeStep cl a st).2 := rfl
      rw [hrun, ha2]
      obtain ⟨ih1, ih2⟩ :=
        ih (fun inp hi => hsucc inp (List.mem_cons_of_mem a hi))
          ⟨st.history ++ [r], st.entries ++ [a]⟩
      constructor
      · rw [ih1]; simp
      · rw [ih2]; simp; omega
  exact ⟨(hmain inputs h s).1, (hmain inputs h s).2, hstep⟩

/-- Witness for C5: two successful analyses append exactly the two inputs. -/
theorem journal_append_only_witness :
    (runAnalyzes clJoy ["day one".data, "day two".data] st0).entries
      = st0.entries ++ ["day one".data, "day two".data]
    ∧ (runAnalyzes clJoy ["day one".data, "day two".data] st0).history.length
      = st0.history.length + 2 := by
  have hsucc : ∀ inp ∈ ["day one".data, "day two".data],
      ∃ e c r, analyzeOutcome clJoy inp = Outcome.success e c r := by
    intro inp hi
    simp only [List.mem_cons, List.not_mem_nil, or_false] at hi
    rcases hi with rfl | rfl
    · exact ⟨"joy".data, 1, _, rfl⟩
    · exact ⟨"joy".data, 1, _, rfl⟩
  exact ⟨(journal_append_only clJoy _ st0 hsucc).1,
    (journal_append_only clJoy _ st0 hsucc).2.1⟩

lemma pickMax_spec (ys : List (List Char × ℚ)) (acc : List Char × ℚ) :
    ∃ l₁ l₂, acc :: ys = l₁ ++ pickMax acc ys :: l₂
      ∧ (∀ p ∈ l₁, p.2 < (pickMax acc ys).2)
      ∧ (∀ p ∈ acc :: ys, p.2 ≤ (pickMax acc ys).2) := by
  induction ys generalizing acc with
  | nil =>
    refine ⟨[], [], by simp [pickMax], by simp, ?_⟩
    intro p hp
    simp only [List.mem_singleton] at hp
    subst hp
    simp [pickMax]
  | cons y ys ih =>
    by_cases hlt : acc.2 < y.2
    · have hpick : pickMax acc (y :: ys) = pickMax y ys := by
        simp [pickMax, hlt]
      obtain ⟨l₁, l₂, heq, hl₁, hle⟩ := ih y
      refine ⟨acc :: l₁, l₂, ?_, ?_, ?_⟩
      · rw [hpick, List.cons_append, ← heq]
      · intro p hp
        rw [hpick]
        rcases List.mem_cons.mp hp with rfl | hp'
        · exact lt_of_lt_of_le hlt (hle y (List.mem_cons_self y ys))
        · exact hl₁ p hp'
      · intro p hp
        rw [hpick]
        rcases List.mem_cons.mp hp with rfl | hp'
        · exact le_of_lt (lt_of_lt_of_le hlt (hle y (List.mem_cons_self y ys)))
        · exact hle p hp'
    · have hpick : pickMax acc (y :: ys) = pickMax acc ys := by
        simp [pickMax, hlt]
      have hylea : y.2 ≤ acc.2 := not_lt.mp hlt
      obtain ⟨l₁, l₂, heq, hl₁, hle⟩ := ih acc
      have haccle : acc.2 ≤ (pickMax acc ys).2 :=
        hle acc (List.mem_cons_self acc ys)
      cases l₁ with
      | nil =>
        rw [List.nil_append] at heq
        injection heq with h1 h2
        refine ⟨[], y :: l₂, ?_, by simp, ?_⟩
        · rw [List.nil_append, hpick, ← h1, h2]
        · intro p hp
          rw [hpick, ← h1]
          rcases List.mem_cons.mp hp with rfl | hp'
          · exact le_rfl
          rcases List.mem_cons.mp hp' with rfl | hp''
          · exact hylea
          · have := hle p (List.mem_cons_of_mem acc hp'')
            rwa [← h1] at this
      | cons b l₁t =>
        rw [List.cons_append] at heq
        injection heq with h1 h2
        have hacclt : acc.2 < (pickMax acc ys).2 := by
          nth_rewrite 1 [h1]
          exact hl₁ b (List.mem_cons_self b l₁t)
        refine ⟨acc :: y :: l₁t, l₂, ?_, ?_, ?_⟩
        · rw [hpick, List.cons_append, List.cons_append, ← h2]
        · intro p hp
          rw [hpick]
          rcases List.mem_cons.mp hp with rfl | hp'
          · exact hacclt
          rcases List.mem_cons.mp hp' with rfl | hp''
          · exact lt_of_le_of_lt hylea hacclt
          · exact hl₁ p (List.mem_cons_of_mem b hp'')
        · intro p hp
          rw [hpick]
          rcases List.mem_cons.mp hp with rfl | hp'
          · exact haccle
          rcases List.mem_cons.mp hp' with rfl | hp''
          · exact le_trans hylea haccle
          · exact hle p (List.mem_cons_of_mem acc hp'')

/-- C8: `top_emotion` (Python `max` with a score key) returns an element of
the list attaining the maximal score, and among equal maximal scores it is
the first occurrence in the classifier order: every element strictly
before it scores strictly less. -/
theorem top_emotion_first_max (scores : List (List Char × ℚ))
    (m : List Char × ℚ) (h : top_emotion scores = some m) :
    m ∈ scores ∧ (∀ p ∈ scores, p.2 ≤ m.2)
    ∧ ∃ l₁ l₂, scores = l₁ ++ m :: l₂ ∧ ∀ p ∈ l₁, p.2 < m.2 := by
  cases scores with
  | nil => exact absurd h (by simp [top_emotion])
  | cons x xs =>
    have hm : pickMax x xs = m := by
      simpa [top_emotion] using h
    obtain ⟨l₁, l₂, heq, hl₁, hle⟩ := pickMax_spec xs x
    rw [hm] at heq hl₁ hle
    refine ⟨?_, hle, l₁, l₂, heq, hl₁⟩
    rw [heq]
    exact List.mem_append_right l₁ (List.mem_cons_self m l₂)

/-- A tied classifier output used in the C8 witness. -/
def tieScores : List (List Char × ℚ) :=
  [("joy".data, 1), ("sadness".data, 1), ("anger".data, 0)]

/-- Witness for C8: on a tie between `joy` and `sadness` the earlier `joy`
is selected, and every listed pair scores at most the selected score. -/
theorem top_emotion_first_max_witness :
    ("joy".data, (1:ℚ)) ∈ tieScores
    ∧ ("sadness".data, (1:ℚ)).2 ≤ ("joy".data, (1:ℚ)).2 := by
  have h := top_emotion_first_max tieScores ("joy".data, 1) rfl
  exact ⟨h.1, h.2.1 ("sadness".data, 1) (by decide)⟩

/-- C10: the two session lists stay in lockstep — every reachable state has
equally long `entries` and `history`; one Analyze click either leaves the
pairing `entries.zip history` unchanged or appends exactly the pair of the
new input and its risk score; an Export click never changes the state. -/
theorem parallel_lists_invariant :
    (∀ s, Reachable s → s.entries.length = s.history.length)
    ∧ (∀ (cl : Classifier) (input : List Char) (s : AppState),
        s.entries.length = s.history.length →
        (analyzeStep cl input s).2.entries.zip (analyzeStep cl input s).2.history
          = s.entries.zip s.history
        ∨ ∃ r, (analyzeStep cl input s).2.entries.zip
            (analyzeStep cl input s).2.history
          = s.entries.zip s.history ++ [(input, r)])
    ∧ (∀ (s : AppState) (b : Bool), (exportStep s b).2 = s) := by
  have hexp : ∀ (s : AppState) (b : Bool), (exportStep s b).2 = s := by
    intro s b; cases b <;> rfl
  refine ⟨?_, ?_, hexp⟩
  · intro s hs
    induction hs with
    | init => rfl
    | analyzed cl input s₁ hs₁ ih =>
      rcases analyzeStep_snd_cases cl input s₁ with h | ⟨r, h⟩
      · rw [h]; exact ih
      · rw [h]; simp [ih]
    | exported s₁ b hs₁ ih => rw [hexp s₁ b]; exact ih
  · intro cl input s hlen
    rcases analyzeStep_snd_cases cl input s with h | ⟨r, h⟩
    · left; rw [h]
    · right
      refine ⟨r, ?_⟩
      rw [h]
      show (s.entries ++ [input]).zip (s.history ++ [r])
        = s.entries.zip s.history ++ [(input, r)]
      rw [List.zip_append hlen]
      rfl

/-- A one-entry state used in the C10 witness. -/
def stOne : AppState := ⟨[3], ["day one".data]⟩

/-- Witness for C10 at the initial state and a concrete export click. -/
theorem parallel_lists_invariant_witness :
    st0.entries.length = st0.history.length
    ∧ (exportStep stOne true).2 = stOne :=
  ⟨parallel_lists_invariant.1 st0 Reachable.init,
   parallel_lists_invariant.2.2 stOne true⟩

/-- C6 counterexample: on a classifier failure the analyze flow does NOT
surface a handled "analysis unavailable" error — the exception escapes the
application code unhandled (`classifier(user_input)` on line 95 of
`src/app.py` is wrapped in no try/except, and the string
"analysis unavailable" appears nowhere in the program). -/
theorem classifier_failure_unhandled_cx :
    ¬ handledOutcome (analyzeStep clNone "rough day".data st0).1 :=
  fun h => h

/-- C6 (amended): when the classifier adapter is unavailable or throws on a
non-blank input, the exception propagates uncaught out of the analyze flow
(no handled message) and the session journal is exactly as before — no
entry is created. -/
theorem classifier_failure_no_entry (cl : Classifier) (input : List Char)
    (s : AppState) (hne : pyStrip input ≠ []) (hcl : cl input = none) :
    analyzeStep cl input s = (Outcome.uncaughtException, s)
    ∧ ¬ handledOutcome (analyzeStep cl input s).1 := by
  have h : analyzeStep cl input s = (Outcome.uncaughtException, s) := by
    unfold analyzeStep analyzeOutcome
    rw [if_neg hne, hcl]
  refine ⟨h, ?_⟩
  rw [h]
  exact fun hh => hh

/-- Witness for the amended C6 at a concrete failing classifier. -/
theorem classifier_failure_no_entry_witness :
    analyzeStep clNone "bad day".data st0 = (Outcome.uncaughtException, st0)
    ∧ ¬ handledOutcome (analyzeStep clNone "bad day".data st0).1 :=
  classifier_failure_no_entry clNone "bad day".data st0 (by decide) rfl

/-- C7 counterexample: with a non-empty journal, if the trend plot cannot
be rendered to an image the export does NOT fail gracefully — the
exception escapes the application code unhandled (`fig.savefig`/`pdf.image`
on lines 178-180 of `src/app.py` are wrapped in no try/except and no error
message is shown), even though the journal does stay intact. -/
theorem export_plot_failure_cx :
    ¬ handledExport (exportStep stOne false).1
    ∧ (exportStep stOne false).2 = stOne :=
  ⟨fun h => h, rfl⟩

/-- C7 (amended): an export request cannot occur on an empty journal (the
Export button is gated behind `len(history) > 0`); when the plot cannot be
rendered to an image, the export raises an uncaught exception instead of a
reported error, the journal is unchanged, and no report file is written
(`pdf.output` is only reached after the image step). -/
theorem export_failure_behavior (s : AppState) :
    (s.history = [] → exportVisible s = false)
    ∧ exportStep s false = (ExportResult.uncaughtException, s)
    ∧ (∀ blocks img msg,
        (exportStep s false).1 ≠ ExportResult.written blocks img msg) := by
  refine ⟨?_, rfl, ?_⟩
  · intro h
    simp [exportVisible, h]
  · intro blocks img msg
    intro hcontra
    exact ExportResult.noConfusion hcontra

/-- Witness for the amended C7: the export control is hidden on the empty
journal, and a concrete failing export leaves a one-entry journal intact. -/
theorem export_failure_behavior_witness :
    exportVisible st0 = false
    ∧ exportStep stOne false = (ExportResult.uncaughtException, stOne) :=
  ⟨(export_failure_behavior st0).1 rfl, (export_failure_behavior stOne).2.1⟩

end MindGuard
